import Mathlib

/-!
A shallow embedding of `src/charts/text-filter-widget.js` from dc.js: the
`TextFilterWidget` class, its default normalization and filter-function
factory, its three get/set accessors, its render/redraw hooks over a model of
the DOM children of its mount point, and the input listener it attaches.

The widget's collaborators (`BaseMixin`, `core/constants`, `core/events`,
`core/core`) belong to the repository but are not among the supplied sources;
where their behaviour decides a property they are modelled from the spec, and
each such definition says so in its doc comment.  JavaScript closures over
`this` are translated by passing the current value of the field they read
(`this._normalize`) explicitly at each moment the closure runs.
-/

/-- Embedding of JavaScript `String.prototype.toLowerCase` as used by the
widget's default normalization `s => s.toLowerCase()`: lowering each character
of the string. -/
def jsToLowerCase (s : String) : String :=
  String.mk (s.data.map Char.toLower)

/-- Scan underlying JavaScript `String.prototype.indexOf`: the first position
at or after `i` where `pat` occurs in `s`, as an `Int`, and `-1` when there is
none.  The empty pattern occurs at the first position examined. -/
def listIndexOfAux (pat : List Char) : List Char → Nat → Int
  | [], i => if pat = [] then (i : Int) else -1
  | c :: rest, i =>
      if pat.isPrefixOf (c :: rest) then (i : Int) else listIndexOfAux pat rest (i + 1)

/-- JavaScript `s.indexOf(pat)` for strings. -/
def strIndexOf (s pat : String) : Int :=
  listIndexOfAux pat.data s.data 0

/-- The spec side of the matching property: `needle` occurs contiguously
inside `hay` ("contains ... as a substring"). -/
def containsSubstring (hay needle : List Char) : Prop :=
  ∃ pre post, hay = pre ++ needle ++ post

/-- The type of the widget's `_normalize` field: a text-normalization
function. -/
abbrev Normalizer := String → String

/-- The type of the widget's `_filterFunctionFactory` field.  In the source
the factory and the predicate it returns are closures over `this` that read
`this._normalize` when they run; state passing makes the two reads explicit:
the first `Normalizer` argument is the value of `this._normalize` at the
moment the factory is applied to the query, the second is its value at the
moment the returned predicate is invoked on a record value. -/
abbrev FilterFactory := Normalizer → String → Normalizer → String → Bool

/-- Embedding of the default `_filterFunctionFactory` installed by the
constructor:
`query => { query = this._normalize(query); return d => this._normalize(d).indexOf(query) !== -1; }`. -/
def defaultFilterFunctionFactory : FilterFactory :=
  fun normAtApply query =>
    let query := normAtApply query
    fun normAtInvoke d => strIndexOf (normAtInvoke d) query != -1

/-- The widget's instance fields: the three configuration fields set in the
constructor, and the stored group placeholder installed via `this.group(...)`
(the group slot itself lives in `BaseMixin`, outside the supplied sources;
only this widget's thrower ever occupies it). -/
structure TextFilterWidget where
  _normalize : Normalizer
  _filterFunctionFactory : FilterFactory
  _placeHolder : String
  _group : Unit → Except String Unit

/-- The fixed diagnostic message thrown by the group placeholder installed in
the constructor. -/
def groupErrorMessage : String :=
  "the group function on textFilterWidget should never be called, please report the issue"

/-- Embedding of the constructor: the default normalization, the default
filter-function factory, the default placeholder `'search'`, and the
loudly-failing group placeholder. -/
def mkTextFilterWidget : TextFilterWidget where
  _normalize := fun s => jsToLowerCase s
  _filterFunctionFactory := defaultFilterFunctionFactory
  _placeHolder := "search"
  _group := fun _ => Except.error groupErrorMessage

/-- The `normalize` accessor: with no argument (`none`) it returns the current
normalization function; with one argument it sets the field and returns the
instance for chaining. -/
def TextFilterWidget.normalize (w : TextFilterWidget) :
    Option Normalizer → Normalizer ⊕ TextFilterWidget
  | none => Sum.inl w._normalize
  | some f => Sum.inr { w with _normalize := f }

/-- The `placeHolder` accessor: get with no argument, set-and-chain with
one. -/
def TextFilterWidget.placeHolder (w : TextFilterWidget) :
    Option String → String ⊕ TextFilterWidget
  | none => Sum.inl w._placeHolder
  | some p => Sum.inr { w with _placeHolder := p }

/-- The `filterFunctionFactory` accessor: get with no argument, set-and-chain
with one. -/
def TextFilterWidget.filterFunctionFactory (w : TextFilterWidget) :
    Option FilterFactory → FilterFactory ⊕ TextFilterWidget
  | none => Sum.inl w._filterFunctionFactory
  | some f => Sum.inr { w with _filterFunctionFactory := f }

/-- Modelled from the spec: the `group` accessor belongs to `BaseMixin`
(`src/base/base-mixin.js`), which is not among the supplied sources.  Per the
spec, the constructor installs a placeholder group that fails loudly if ever
invoked, and invoking the group accessor with zero or one arguments always
raises the designated error: every invocation runs the stored placeholder,
which throws. -/
def TextFilterWidget.group (w : TextFilterWidget)
    (arg : Option (Unit → Except String Unit)) : Except String Unit :=
  match arg with
  | none => w._group ()
  | some _ => w._group ()

/-- A DOM element under the widget's mount point, as far as the source
touches it: its tag, its CSS classes, its `placeholder` attribute (the only
attribute the source sets), and whether the widget's input listener is
attached.  The DOM under the mount point is a `List Elem`. -/
structure Elem where
  tag : String
  classes : List String
  placeholder : Option String
  listenerAttached : Bool
deriving DecidableEq

/-- `this.select('input').remove()` in `_doRender`: d3 `select` picks the
first matching element under the root and `remove` detaches it; with no match
this is a no-op. -/
def removeFirstInput : List Elem → List Elem
  | [] => []
  | e :: rest => if e.tag = "input" then rest else e :: removeFirstInput rest

/-- The fixed style class of the input element. -/
def INPUT_CSS_CLASS : String := "dc-text-filter-input"

/-- The element built by `_doRender`: `this.root().append('input')` then
`.classed(INPUT_CSS_CLASS, true)` then `.on('input', listener)`. -/
def freshInputElem : Elem where
  tag := "input"
  classes := [ INPUT_CSS_CLASS]
  placeholder := none
  listenerAttached := true

/-- `this.root().selectAll('input').attr('placeholder', p)` in `_doRedraw`:
sets the attribute on every input element under the root. -/
def setPlaceholderAttr (p : String) (dom : List Elem) : List Elem :=
  dom.map fun e => if e.tag = "input" then { e with placeholder := some p } else e

/-- Embedding of `_doRedraw`: re-applies the current placeholder text to the
input elements and returns `this`. -/
def TextFilterWidget.doRedraw (w : TextFilterWidget) (dom : List Elem) :
    TextFilterWidget × List Elem :=
  (w, setPlaceholderAttr w._placeHolder dom)

/-- Embedding of `_doRender`: removes the first pre-existing input element,
appends a fresh input carrying the style class and the listener, then calls
`_doRedraw` and returns `this`. -/
def TextFilterWidget.doRender (w : TextFilterWidget) (dom : List Elem) :
    TextFilterWidget × List Elem :=
  w.doRedraw (removeFirstInput dom ++ [freshInputElem])

/-- The number of input elements under the mount point. -/
def countInputs (dom : List Elem) : Nat :=
  (dom.filter fun e => e.tag = "input").length

/-- `n` successive invocations of `_doRender` on the DOM under the mount
point. -/
def renderIter (w : TextFilterWidget) : Nat → List Elem → List Elem
  | 0, dom => dom
  | n + 1, dom => renderIter w n (w.doRender dom).2

/-- Modelled from the spec: the fixed delay `constants.EVENT_DELAY` passed to
`events.trigger` (`src/core/constants.js` is not among the supplied sources);
only its fixedness matters to the claims. -/
def EVENT_DELAY : Nat := 40

/-- The state the input listener acts on.  `dimFilter` is the active filter
function of the bound dimension — `self.dimension().filterFunction(...)`
reaches code outside the supplied sources and is modelled from the spec as a
slot holding the installed predicate.  `scheduled` records the debounced
redraw requests handed to `events.trigger` — modelled from the spec as a
fire-and-forget scheduler, each request carrying the fixed delay. -/
structure FilterWorld where
  dimFilter : Option (Normalizer → String → Bool)
  scheduled : List Nat

/-- Embedding of the listener attached in `_doRender`: on an input event with
current text `value` it installs `self._filterFunctionFactory(this.value)` as
the dimension's filter function and schedules a debounced `redrawAll` after
`EVENT_DELAY`.  The factory runs at this moment, so it receives the widget's
current `_normalize`. -/
def onInputListener (w : TextFilterWidget) (value : String)
    (world : FilterWorld) : FilterWorld where
  dimFilter := some (w._filterFunctionFactory w._normalize value)
  scheduled := world.scheduled ++ [ EVENT_DELAY]

/-- The widget's operations, for the totality property: render, redraw, the
three accessors in both get and set form, and invoking the group accessor. -/
inductive WidgetOp where
  | render
  | redraw
  | getNormalize
  | setNormalize (f : Normalizer)
  | getPlaceHolder
  | setPlaceHolder (p : String)
  | getFilterFactory
  | setFilterFactory (f : FilterFactory)
  | groupCall (arg : Option (Unit → Except String Unit))

/-- Whether an operation is an invocation of the group accessor. -/
def WidgetOp.isGroupCall : WidgetOp → Bool
  | groupCall _ => true
  | _ => false

/-- A widget together with the DOM under its mount point. -/
structure WidgetWorld where
  widget : TextFilterWidget
  dom : List Elem

/-- Running one operation, with `Except` recording any raised error. -/
def runOp (op : WidgetOp) (world : WidgetWorld) : Except String WidgetWorld :=
  match op with
  | .render =>
      Except.ok ⟨(world.widget.doRender world.dom).1, (world.widget.doRender world.dom).2⟩
  | .redraw =>
      Except.ok ⟨(world.widget.doRedraw world.dom).1, (world.widget.doRedraw world.dom).2⟩
  | .getNormalize => Except.ok world
  | .setNormalize f =>
      match world.widget.normalize (some f) with
      | Sum.inl _ => Except.ok world
      | Sum.inr w => Except.ok ⟨w, world.dom⟩
  | .getPlaceHolder => Except.ok world
  | .setPlaceHolder p =>
      match world.widget.placeHolder (some p) with
      | Sum.inl _ => Except.ok world
      | Sum.inr w => Except.ok ⟨w, world.dom⟩
  | .getFilterFactory => Except.ok world
  | .setFilterFactory f =>
      match world.widget.filterFunctionFactory (some f) with
      | Sum.inl _ => Except.ok world
      | Sum.inr w => Except.ok ⟨w, world.dom⟩
  | .groupCall arg =>
      match world.widget.group arg with
      | Except.error e => Except.error e
      | Except.ok _ => Except.ok world

/-- `List.isPrefixOf` on characters decides the existence of a completing
suffix. -/
theorem isPrefixOf_eq_true_iff (pat : List Char) :
    ∀ s : List Char, pat.isPrefixOf s = true ↔ ∃ t, s = pat ++ t := by
  induction pat with
  | nil =>
    intro s
    simp [List.isPrefixOf]
  | cons a as ih =>
    intro s
    cases s with
    | nil => simp [List.isPrefixOf]
    | cons b bs =>
      simp only [List.isPrefixOf, Bool.and_eq_true, beq_iff_eq, ih, List.cons_append,
        List.cons.injEq]
      constructor
      · rintro ⟨hab, t, ht⟩
        exact ⟨t, hab.symm, ht⟩
      · rintro ⟨t, hab, ht⟩
        exact ⟨hab.symm, t, ht⟩

/-- The scan with the empty pattern stops immediately. -/
theorem listIndexOfAux_nil_pat (s : List Char) (i : Nat) :
    listIndexOfAux [] s i = (i : Int) := by
  cases s <;> simp [listIndexOfAux, List.isPrefixOf]

/-- The `indexOf` scan misses (`= -1`) exactly when the pattern occurs nowhere
in the scanned list. -/
theorem listIndexOfAux_ne_neg_one_iff (pat s : List Char) (i : Nat) :
    listIndexOfAux pat s i ≠ -1 ↔ containsSubstring s pat := by
  induction s generalizing i with
  | nil =>
    by_cases hp : pat = []
    · subst hp
      constructor
      · intro _
        exact ⟨[], [], rfl⟩
      · intro _
        rw [listIndexOfAux_nil_pat]
        omega
    · simp only [listIndexOfAux, if_neg hp, ne_eq, not_true_eq_false, false_iff]
      rintro ⟨pre, post, h⟩
      have hlen := congrArg List.length h
      cases pat with
      | nil => exact hp rfl
      | cons x xs =>
        simp [List.length_append] at hlen
        omega
  | cons c rest ih =>
    by_cases hpre : pat.isPrefixOf (c :: rest) = true
    · simp only [listIndexOfAux, if_pos hpre]
      constructor
      · intro _
        obtain ⟨t, ht⟩ := (isPrefixOf_eq_true_iff pat (c :: rest)).mp hpre
        exact ⟨[], t, by simpa using ht⟩
      · intro _
        omega
    · simp only [listIndexOfAux, if_neg hpre, ih]
      constructor
      · rintro ⟨pre, post, h⟩
        exact ⟨c :: pre, post, by simp [h]⟩
      · rintro ⟨pre, post, h⟩
        cases pre with
        | nil =>
          exact absurd ((isPrefixOf_eq_true_iff pat (c :: rest)).mpr
            ⟨post, by simpa using h⟩) hpre
        | cons p ps =>
          rw [List.cons_append, List.cons_append] at h
          injection h with h1 h2
          exact ⟨ps, post, h2⟩

/-- `indexOf` on strings misses exactly when the pattern string occurs nowhere
in the searched string. -/
theorem strIndexOf_ne_neg_one_iff (s pat : String) :
    strIndexOf s pat ≠ -1 ↔ containsSubstring s.data pat.data :=
  listIndexOfAux_ne_neg_one_iff pat.data s.data 0

/-- Counting inputs steps through `cons` by the head's tag. -/
theorem countInputs_cons (e : Elem) (rest : List Elem) :
    countInputs (e :: rest)
      = if e.tag = "input" then countInputs rest + 1 else countInputs rest := by
  by_cases h : e.tag = "input" <;> simp [countInputs, List.filter_cons, h]

/-- Removing the first input element drops the input count by one. -/
theorem countInputs_removeFirstInput (dom : List Elem) :
    countInputs (removeFirstInput dom) = countInputs dom - 1 := by
  induction dom with
  | nil => rfl
  | cons e rest ih =>
    by_cases h : e.tag = "input"
    · simp [removeFirstInput, h, countInputs_cons]
    · simp [removeFirstInput, h, countInputs_cons, ih]

/-- Input counting is additive over append. -/
theorem countInputs_append (a b : List Elem) :
    countInputs (a ++ b) = countInputs a + countInputs b := by
  simp [countInputs, List.filter_append]

/-- Setting the placeholder attribute changes no tags, hence no input count. -/
theorem countInputs_setPlaceholderAttr (p : String) (dom : List Elem) :
    countInputs (setPlaceholderAttr p dom) = countInputs dom := by
  induction dom with
  | nil => rfl
  | cons e rest ih =>
    by_cases h : e.tag = "input" <;>
      simp [setPlaceholderAttr, countInputs_cons, h, ih] <;>
      simp [setPlaceholderAttr] at ih <;> omega

/-- The fresh input element counts as one input. -/
theorem countInputs_freshInputElem : countInputs [freshInputElem] = 1 := by decide

/-- One `_doRender` leaves `(previous count - 1) + 1` inputs under the mount
point. -/
theorem countInputs_doRender (w : TextFilterWidget) (dom : List Elem) :
    countInputs (w.doRender dom).2 = countInputs dom - 1 + 1 := by
  show countInputs (setPlaceholderAttr _ (removeFirstInput dom ++ [freshInputElem]))
      = countInputs dom - 1 + 1
  rw [countInputs_setPlaceholderAttr, countInputs_append,
    countInputs_removeFirstInput, countInputs_freshInputElem]

/-- Any widget whose stored group placeholder is the constructor's thrower
raises the fixed diagnostic on every group invocation. -/
theorem group_raises_of_ctor (w : TextFilterWidget)
    (arg : Option (Unit → Except String Unit))
    (h : w._group = mkTextFilterWidget._group) :
    w.group arg = Except.error groupErrorMessage := by
  cases arg <;> simp [TextFilterWidget.group, h, mkTextFilterWidget]

/-- Claim C1, counterexample: the claim asserts that query "cole" against
record value "John Coltrane" yields true, but "john coltrane" does not
contain "cole" (after "col" comes "t"), so the default predicate yields
false there. -/
theorem c1_cole_counterexample :
    defaultFilterFunctionFactory mkTextFilterWidget._normalize "cole"
      mkTextFilterWidget._normalize "John Coltrane" = false := by
  decide

/-- Claim C1 (amended): for every query string q and record value d, the
default predicate returns true exactly when the lowercased d contains the
lowercased q as a substring; in particular, against record value
"John Coltrane", queries "cole" and "COLE" yield false (lowercased
"john coltrane" has no "cole"), queries "colt" and "COLT" yield true
(case-insensitively), and query "coln" yields false. -/
theorem c1_default_filter_contains (q d : String) :
    (defaultFilterFunctionFactory mkTextFilterWidget._normalize q
        mkTextFilterWidget._normalize d = true ↔
      containsSubstring (jsToLowerCase d).data (jsToLowerCase q).data) ∧
    defaultFilterFunctionFactory mkTextFilterWidget._normalize "cole"
        mkTextFilterWidget._normalize "John Coltrane" = false ∧
    defaultFilterFunctionFactory mkTextFilterWidget._normalize "COLE"
        mkTextFilterWidget._normalize "John Coltrane" = false ∧
    defaultFilterFunctionFactory mkTextFilterWidget._normalize "colt"
        mkTextFilterWidget._normalize "John Coltrane" = true ∧
    defaultFilterFunctionFactory mkTextFilterWidget._normalize "COLT"
        mkTextFilterWidget._normalize "John Coltrane" = true ∧
    defaultFilterFunctionFactory mkTextFilterWidget._normalize "coln"
        mkTextFilterWidget._normalize "John Coltrane" = false := by
  refine ⟨?_, by decide, by decide, by decide, by decide, by decide⟩
  show (strIndexOf (jsToLowerCase d) (jsToLowerCase q) != -1) = true ↔ _
  rw [bne_iff_ne]
  exact strIndexOf_ne_neg_one_iff _ _

/-- Claim C2: invoking the group accessor, with zero or one arguments, on any
widget carrying the constructor-installed group placeholder, always raises
the fixed diagnostic message installed at construction. -/
theorem c2_group_always_raises (w : TextFilterWidget)
    (arg : Option (Unit → Except String Unit))
    (h : w._group = mkTextFilterWidget._group) :
    w.group arg = Except.error groupErrorMessage :=
  group_raises_of_ctor w arg h

/-- Witness for claim C2 at the freshly constructed widget, with zero and
with one argument. -/
theorem c2_group_always_raises_witness :
    mkTextFilterWidget.group none = Except.error groupErrorMessage ∧
    mkTextFilterWidget.group (some fun _ => Except.ok ())
      = Except.error groupErrorMessage :=
  ⟨c2_group_always_raises mkTextFilterWidget none rfl,
   c2_group_always_raises mkTextFilterWidget (some fun _ => Except.ok ()) rfl⟩

/-- Claim C3: on an input event the listener installs the predicate obtained
by applying the currently configured filter-function factory (receiving the
current normalization function) to the input's current text as the bound
dimension's active filter function, and appends one debounced redraw request
with the fixed delay; when the configured factory is the default one, the
installed predicate compares record values against the normalized current
text. -/
theorem c3_input_listener_effect (w : TextFilterWidget) (value : String)
    (world : FilterWorld) :
    (onInputListener w value world).dimFilter
        = some (w._filterFunctionFactory w._normalize value) ∧
    (onInputListener w value world).scheduled = world.scheduled ++ [ EVENT_DELAY] ∧
    (w._filterFunctionFactory = defaultFilterFunctionFactory →
      (onInputListener w value world).dimFilter
        = some fun nrm d => strIndexOf (nrm d) (w._normalize value) != -1) := by
  refine ⟨rfl, rfl, ?_⟩
  intro hf
  simp only [onInputListener, hf]
  rfl

/-- Witness for claim C3 at the freshly constructed widget typing "colt" into
an empty world. -/
theorem c3_input_listener_effect_witness :
    (onInputListener mkTextFilterWidget "colt" ⟨none, []⟩).dimFilter
      = some fun nrm d => strIndexOf (nrm d) (mkTextFilterWidget._normalize "colt") != -1 :=
  (c3_input_listener_effect mkTextFilterWidget "colt" ⟨none, []⟩).2.2 rfl

/-- Claim C4: starting from a mount point holding at most one input element
(a fresh mount holds none; each render leaves one), any positive number of
successive renders leaves exactly one input element under the mount point:
render removes the pre-existing input and appends a single new one. -/
theorem c4_render_exactly_one_input (w : TextFilterWidget) (dom : List Elem)
    (n : Nat) (h : countInputs dom ≤ 1) :
    countInputs (renderIter w (n + 1) dom) = 1 := by
  induction n generalizing dom with
  | zero =>
    show countInputs (w.doRender dom).2 = 1
    rw [countInputs_doRender]
    omega
  | succ n ih =>
    show countInputs (renderIter w (n + 1) (w.doRender dom).2) = 1
    apply ih
    rw [countInputs_doRender]
    omega

/-- Witness for claim C4: two renders on an empty mount point leave exactly
one input element. -/
theorem c4_render_exactly_one_input_witness :
    countInputs ([] : List Elem) ≤ 1 ∧
    countInputs (renderIter mkTextFilterWidget 2 []) = 1 :=
  ⟨by decide, c4_render_exactly_one_input mkTextFilterWidget [] 1 (by decide)⟩

/-- Claim C5: after setting the placeholder text to P, redraw returns the
instance unchanged, and its only effect on the rendered output is writing P
into the placeholder attribute of every input element (in particular each
rendered input element carries placeholder P afterwards). -/
theorem c5_placeholder_redraw (w wP : TextFilterWidget) (P : String)
    (dom : List Elem) (h : w.placeHolder (some P) = Sum.inr wP) :
    (wP.doRedraw dom).1 = wP ∧
    (wP.doRedraw dom).2
        = dom.map (fun e =>
            if e.tag = "input" then { e with placeholder := some P } else e) ∧
    ∀ e, e ∈ (wP.doRedraw dom).2 → e.tag = "input" → e.placeholder = some P := by
  have hw : wP = { w with _placeHolder := P } := by
    simp only [TextFilterWidget.placeHolder, Sum.inr.injEq] at h
    exact h.symm
  subst hw
  refine ⟨rfl, rfl, ?_⟩
  intro e he htag
  simp only [TextFilterWidget.doRedraw, setPlaceholderAttr, List.mem_map] at he
  obtain ⟨a, _, hae⟩ := he
  by_cases ha : a.tag = "input"
  · rw [← hae]
    simp [ha]
  · rw [← hae] at htag
    simp [ha] at htag

/-- Witness for claim C5: setting placeholder "type to filter" and redrawing a
mount point holding the fresh input element writes that placeholder onto it. -/
theorem c5_placeholder_redraw_witness :
    (({ mkTextFilterWidget with _placeHolder := "type to filter" } :
        TextFilterWidget).doRedraw [freshInputElem]).2
      = [{ freshInputElem with placeholder := some "type to filter" }] := by
  rw [(c5_placeholder_redraw mkTextFilterWidget _ "type to filter"
    [freshInputElem] rfl).2.1]
  decide

/-- Claim C6: each of the three accessors is a get/set pair: with no argument
it returns the current field value; with one argument it sets the field (a
subsequent get returns the new value) and returns the instance for
chaining. -/
theorem c6_accessors_get_set (w : TextFilterWidget) (f : Normalizer)
    (p : String) (ff : FilterFactory) :
    (w.normalize none = Sum.inl w._normalize ∧
      w.normalize (some f) = Sum.inr { w with _normalize := f } ∧
      ({ w with _normalize := f } : TextFilterWidget).normalize none = Sum.inl f) ∧
    (w.placeHolder none = Sum.inl w._placeHolder ∧
      w.placeHolder (some p) = Sum.inr { w with _placeHolder := p } ∧
      ({ w with _placeHolder := p } : TextFilterWidget).placeHolder none = Sum.inl p) ∧
    (w.filterFunctionFactory none = Sum.inl w._filterFunctionFactory ∧
      w.filterFunctionFactory (some ff) = Sum.inr { w with _filterFunctionFactory := ff } ∧
      ({ w with _filterFunctionFactory := ff } : TextFilterWidget).filterFunctionFactory none
        = Sum.inl ff) :=
  ⟨⟨rfl, rfl, rfl⟩, ⟨rfl, rfl, rfl⟩, ⟨rfl, rfl, rfl⟩⟩

/-- Claim C7: the factory accepts any query string; for the empty query the
default predicate returns true on every record value, whatever normalization
function is current when the predicate runs. -/
theorem c7_empty_query_matches_everything (d : String) (nrm : Normalizer) :
    defaultFilterFunctionFactory mkTextFilterWidget._normalize "" nrm d = true := by
  show (strIndexOf (nrm d) (jsToLowerCase "") != -1) = true
  rw [show jsToLowerCase "" = "" from rfl]
  show (listIndexOfAux [] (nrm d).data 0 != -1) = true
  rw [listIndexOfAux_nil_pat]
  decide

/-- Claim C8: running any widget operation on any widget carrying the
constructor-installed group placeholder raises an error exactly when the
operation is a group invocation, and then the error is the fixed diagnostic;
every other operation (render, redraw, the three accessors in get and set
form) succeeds. -/
theorem c8_only_group_raises (op : WidgetOp) (world : WidgetWorld)
    (h : world.widget._group = mkTextFilterWidget._group) :
    (op.isGroupCall = false → ∃ w2, runOp op world = Except.ok w2) ∧
    (op.isGroupCall = true → runOp op world = Except.error groupErrorMessage) := by
  cases op with
  | groupCall arg =>
    refine ⟨fun hc => by simp [WidgetOp.isGroupCall] at hc, fun _ => ?_⟩
    have hg := group_raises_of_ctor world.widget arg h
    simp [runOp, hg]
  | render => exact ⟨fun _ => ⟨_, rfl⟩, fun hc => by simp [WidgetOp.isGroupCall] at hc⟩
  | redraw => exact ⟨fun _ => ⟨_, rfl⟩, fun hc => by simp [WidgetOp.isGroupCall] at hc⟩
  | getNormalize => exact ⟨fun _ => ⟨_, rfl⟩, fun hc => by simp [WidgetOp.isGroupCall] at hc⟩
  | setNormalize f => exact ⟨fun _ => ⟨_, rfl⟩, fun hc => by simp [WidgetOp.isGroupCall] at hc⟩
  | getPlaceHolder => exact ⟨fun _ => ⟨_, rfl⟩, fun hc => by simp [WidgetOp.isGroupCall] at hc⟩
  | setPlaceHolder p => exact ⟨fun _ => ⟨_, rfl⟩, fun hc => by simp [WidgetOp.isGroupCall] at hc⟩
  | getFilterFactory => exact ⟨fun _ => ⟨_, rfl⟩, fun hc => by simp [WidgetOp.isGroupCall] at hc⟩
  | setFilterFactory f => exact ⟨fun _ => ⟨_, rfl⟩, fun hc => by simp [WidgetOp.isGroupCall] at hc⟩

/-- Witness for claim C8: on the fresh widget, invoking the group accessor
raises the fixed diagnostic. -/
theorem c8_only_group_raises_witness :
    runOp (WidgetOp.groupCall none) ⟨mkTextFilterWidget, []⟩
      = Except.error groupErrorMessage :=
  (c8_only_group_raises (WidgetOp.groupCall none) ⟨mkTextFilterWidget, []⟩ rfl).2 rfl

/-- Claim C9: each one-argument accessor call leaves the other two
configuration fields unchanged. -/
theorem c9_setters_frame (w : TextFilterWidget) (f : Normalizer) (p : String)
    (ff : FilterFactory) :
    (∀ w2, w.placeHolder (some p) = Sum.inr w2 →
        w2._normalize = w._normalize ∧
        w2._filterFunctionFactory = w._filterFunctionFactory) ∧
    (∀ w2, w.normalize (some f) = Sum.inr w2 →
        w2._placeHolder = w._placeHolder ∧
        w2._filterFunctionFactory = w._filterFunctionFactory) ∧
    (∀ w2, w.filterFunctionFactory (some ff) = Sum.inr w2 →
        w2._placeHolder = w._placeHolder ∧
        w2._normalize = w._normalize) := by
  refine ⟨?_, ?_, ?_⟩
  · intro w2 h
    simp only [TextFilterWidget.placeHolder, Sum.inr.injEq] at h
    rw [← h]
    exact ⟨rfl, rfl⟩
  · intro w2 h
    simp only [TextFilterWidget.normalize, Sum.inr.injEq] at h
    rw [← h]
    exact ⟨rfl, rfl⟩
  · intro w2 h
    simp only [TextFilterWidget.filterFunctionFactory, Sum.inr.injEq] at h
    rw [← h]
    exact ⟨rfl, rfl⟩

/-- Witness for claim C9: setting the placeholder on the fresh widget leaves
the normalization function and the filter-function factory unchanged. -/
theorem c9_setters_frame_witness :
    ({ mkTextFilterWidget with _placeHolder := "x" } : TextFilterWidget)._normalize
        = mkTextFilterWidget._normalize ∧
    ({ mkTextFilterWidget with _placeHolder := "x" } : TextFilterWidget)._filterFunctionFactory
        = mkTextFilterWidget._filterFunctionFactory :=
  (c9_setters_frame mkTextFilterWidget id "x" defaultFilterFunctionFactory).1 _ rfl

/-- Claim C10: the default factory normalizes the query once, with the
normalization function passed at factory application, while each record value
is normalized with the function current at predicate invocation; concretely,
the predicate built from query "COLT" under lowercasing matches
"John Coltrane" when invocation still lowercases, stops matching it when the
invocation-time normalizer is replaced by the identity, still matches the
already-lowercase "john coltrane" under the identity, and does not match
"JOHN COLTRANE" under the identity — the stored query stayed the lowercased
"colt" rather than being re-normalized at invocation. -/
theorem c10_normalize_capture_timing (n1 n2 : Normalizer) (q d : String) :
    defaultFilterFunctionFactory n1 q n2 d = (strIndexOf (n2 d) (n1 q) != -1) ∧
    defaultFilterFunctionFactory jsToLowerCase "COLT" jsToLowerCase "John Coltrane"
        = true ∧
    defaultFilterFunctionFactory jsToLowerCase "COLT" (fun s => s) "John Coltrane"
        = false ∧
    defaultFilterFunctionFactory jsToLowerCase "COLT" (fun s => s) "john coltrane"
        = true ∧
    defaultFilterFunctionFactory jsToLowerCase "COLT" (fun s => s) "JOHN COLTRANE"
        = false :=
  ⟨rfl, by decide, by decide, by decide, by decide⟩
